import Mathlib

/-!
Verification of the LaTeX security/validation pipeline of django-mathinput
(mathinput/security.py and mathinput/validators.py).

Formulas are modelled as `List Char`.  Each Python regular expression used by
the source is modelled as a specialized deterministic matcher: a function
taking the input suffix and returning `some rest` (the suffix remaining after
the leftmost-at-this-position, greedy match) or `none`.  `re.search` becomes
`searchM` (try every position left to right) and `re.sub` with empty
replacement becomes `substM` (remove every non-overlapping leftmost match).
Python's `\s` and `\w` character classes are modelled over their ASCII
fragments, and `re.IGNORECASE` is modelled by `lowerAscii`-normalizing both
sides, matching Python behavior on the ASCII inputs the patterns consist of.
-/

/-- ASCII lower-casing, as performed by `re.IGNORECASE` and `str.lower`
on the ASCII command names used by the source. -/
def lowerAscii (c : Char) : Char :=
  if 65 ≤ c.toNat ∧ c.toNat ≤ 90 then Char.ofNat (c.toNat + 32) else c

/-- The ASCII fragment of Python's whitespace class `\s`. -/
def isPySpace (c : Char) : Bool :=
  c = ' ' || c = '\t' || c = '\n' || c = '\r' || c = '\x0b' || c = '\x0c'

/-- ASCII letter, Python's `[a-zA-Z]`. -/
def isAsciiLetter (c : Char) : Bool :=
  (97 ≤ c.toNat && c.toNat ≤ 122) || (65 ≤ c.toNat && c.toNat ≤ 90)

/-- ASCII digit. -/
def isDigitChar (c : Char) : Bool :=
  48 ≤ c.toNat && c.toNat ≤ 57

/-- The ASCII fragment of Python's word class `\w`. -/
def isWordChar (c : Char) : Bool :=
  isAsciiLetter c || isDigitChar c || c = '_'

/-- Consume a literal, case-insensitively; return the remaining suffix. -/
def stripCI : List Char → List Char → Option (List Char)
  | [], s => some s
  | _ :: _, [] => none
  | l :: ls, c :: cs => if lowerAscii c = lowerAscii l then stripCI ls cs else none

/-- Consume a maximal run of whitespace, the greedy `\s*`. -/
def dropSpaces (s : List Char) : List Char := s.dropWhile isPySpace

/-- Matcher for a bare case-insensitive literal pattern. -/
def mLit (lit : List Char) : List Char → Option (List Char) := stripCI lit

/-- Matcher for `LIT\s*` (the `\\def\s*` and `\\catcode\s*` patterns). -/
def mLitWs (lit : List Char) (s : List Char) : Option (List Char) :=
  (stripCI lit s).map dropSpaces

/-- Matcher for `LIT\s*\{` (the bulk of the dangerous-command patterns). -/
def mLitWsBrace (lit : List Char) (s : List Char) : Option (List Char) :=
  match stripCI lit s with
  | some r =>
    match dropSpaces r with
    | '{' :: r2 => some r2
    | _ => none
  | none => none

/-- Matcher for `LIT\s*=` (the event-handler patterns such as `onerror\s*=`). -/
def mLitWsEq (lit : List Char) (s : List Char) : Option (List Char) :=
  match stripCI lit s with
  | some r =>
    match dropSpaces r with
    | '=' :: r2 => some r2
    | _ => none
  | none => none

/-- The literal `javascript:`. -/
def jsLit : List Char := "javascript:".data

/-- Greedy backtracking of `[^\x7d]*javascript:`: the match ends after the
last occurrence of `javascript:` whose preceding characters contain no
closing brace; returns the suffix after that occurrence. -/
def findLastJs : List Char → Option (List Char)
  | [] => none
  | c :: t =>
    if c = '}' then none
    else
      match findLastJs t with
      | some r => some r
      | none => stripCI jsLit (c :: t)

/-- Matcher for `\\href\s*\{[^\x7d]*javascript:`, shared stem of the two
href patterns of the source. -/
def hrefStem (s : List Char) : Option (List Char) :=
  match stripCI "\\href".data s with
  | some r =>
    match dropSpaces r with
    | '{' :: r2 => findLastJs r2
    | _ => none
  | none => none

/-- Matcher for `\\href\s*\{[^\x7d]*javascript:[^\x7d]*\x7d`. -/
def mHrefFull (s : List Char) : Option (List Char) :=
  match hrefStem s with
  | some r =>
    match r.dropWhile (fun c => c != '}') with
    | '}' :: r2 => some r2
    | _ => none
  | none => none

/-- Matcher for the generic HTML tag pattern `<[^>]+>`. -/
def mHtmlTag : List Char → Option (List Char)
  | '<' :: c :: t =>
    if c = '>' then none
    else
      match t.dropWhile (fun x => x != '>') with
      | '>' :: r => some r
      | _ => none
  | _ => none

/-- Matcher for `\s*on\w+\s*=`, shared stem of the two event-handler
catch-all patterns of the source. -/
def eventStem (s : List Char) : Option (List Char) :=
  match stripCI "on".data (dropSpaces s) with
  | some (c :: r2) =>
    if isWordChar c then
      match dropSpaces (r2.dropWhile isWordChar) with
      | '=' :: r3 => some r3
      | _ => none
    else none
  | _ => none

/-- Matcher for the quoted event-handler pattern
`\s*(on\w+)\s*=\s*["'][^"']*["']` used by the sanitizer. -/
def mEventQuoted (s : List Char) : Option (List Char) :=
  match eventStem s with
  | some r =>
    match dropSpaces r with
    | q :: r2 =>
      if q = '"' ∨ q = '\'' then
        match r2.dropWhile (fun c => !(c == '"' || c == '\'')) with
        | _ :: r3 => some r3
        | [] => none
      else none
    | [] => none
  | none => none

/-- The DANGEROUS_COMMANDS pattern list of mathinput/security.py, in source
order, each pattern as its matcher. -/
def dangerousMatchers : List (List Char → Option (List Char)) :=
  [ mLitWsBrace "\\input".data
  , mLitWsBrace "\\include".data
  , mLitWsBrace "\\verbatiminput".data
  , mLitWsBrace "\\lstinputlisting".data
  , mLitWsBrace "\\write18".data
  , mLitWs "\\def".data
  , mLitWsBrace "\\newcommand".data
  , mLitWsBrace "\\renewcommand".data
  , mLitWsBrace "\\providecommand".data
  , mLitWsBrace "\\usepackage".data
  , mLitWsBrace "\\RequirePackage".data
  , mLitWsBrace "\\documentclass".data
  , mLitWs "\\catcode".data
  , mLit "\\makeatletter".data
  , mLit "\\makeatother".data
  , hrefStem
  , mLit jsLit
  , mLit "<script".data
  , mLit "</script>".data
  , mLit "<iframe".data
  , mLitWsEq "onerror".data
  , mLitWsEq "onclick".data
  , mLitWsEq "onload".data
  , mLitWsEq "onmouseover".data ]

/-- Length of the match of a consume-style matcher at this position. -/
def matchLen (m : List Char → Option (List Char)) (s : List Char) : Option Nat :=
  (m s).map (fun r => s.length - r.length)

/-- The model of `re.search`: does the pattern match at some position? -/
def searchM (m : List Char → Option (List Char)) : List Char → Bool
  | [] => (m []).isSome
  | c :: t => (m (c :: t)).isSome || searchM m t

/-- Fuel-based scan of `re.sub(pattern, '', s)`: at each position remove
the match (continuing after it) or keep the character.  Every step consumes
at least one character, so fuel equal to the input length always
suffices; the fuel only makes the recursion structural. -/
def substAux (m : List Char → Option (List Char)) : Nat → List Char → List Char
  | 0, s => s
  | _, [] => []
  | fuel + 1, c :: t =>
    match matchLen m (c :: t) with
    | some n =>
      if n = 0 then c :: substAux m fuel t
      else substAux m fuel (t.drop (n - 1))
    | none => c :: substAux m fuel t

/-- The model of `re.sub(pattern, '', s)`: remove every non-overlapping leftmost match,
scanning left to right and continuing after each match. -/
def substM (m : List Char → Option (List Char)) (s : List Char) : List Char :=
  substAux m s.length s

/-- mathinput/security.py `sanitize_latex`: remove each dangerous pattern in
turn, then the full href-javascript pattern, then HTML tags, then quoted
event handlers. -/
def sanitize_latex (s : List Char) : List Char :=
  if s = [] then []
  else
    let r1 := dangerousMatchers.foldl (fun acc m => substM m acc) s
    let r2 := substM mHrefFull r1
    let r3 := substM mHtmlTag r2
    substM mEventQuoted r3

/-- Fuel-based scan of `re.findall(r'\\([a-zA-Z]+)', s)`.  Every step
consumes at least one character, so fuel equal to the input length always
suffices; the fuel only makes the recursion structural. -/
def extractCmdsAux : Nat → List Char → List (List Char)
  | 0, _ => []
  | _, [] => []
  | fuel + 1, '\\' :: rest =>
    match rest with
    | c :: t =>
      if isAsciiLetter c then
        (c :: t.takeWhile isAsciiLetter)
          :: extractCmdsAux fuel (t.dropWhile isAsciiLetter)
      else extractCmdsAux fuel (c :: t)
    | [] => []
  | fuel + 1, _ :: t => extractCmdsAux fuel t

/-- The scan of `re.findall(r'\\([a-zA-Z]+)', s)`: every backslash followed
by a maximal nonempty run of letters, in order of occurrence. -/
def extractCmds (s : List Char) : List (List Char) :=
  extractCmdsAux s.length s

/-- Deduplication keeping first occurrences (a fixed-order model of
Python's `list(set(...))`, whose iteration order is unspecified). -/
def dedupAux (seen : List (List Char)) : List (List Char) → List (List Char)
  | [] => []
  | c :: t => if c ∈ seen then dedupAux seen t else c :: dedupAux (c :: seen) t

/-- mathinput/security.py `extract_commands`. -/
def extract_commands (s : List Char) : List (List Char) :=
  if s = [] then [] else dedupAux [] (extractCmds s)

/-- mathinput/security.py `contains_dangerous_pattern`. -/
def contains_dangerous_pattern (s : List Char) : Bool :=
  if s = [] then false
  else
    dangerousMatchers.any (fun m => searchM m s)
      || searchM hrefStem s || searchM mHtmlTag s || searchM eventStem s

/-- mathinput/security.py BLOCKED_COMMANDS (note the mixed-case
`RequirePackage` entry, kept verbatim from the source). -/
def BLOCKED_COMMANDS : List (List Char) :=
  [ "input".data, "include".data, "write18".data, "def".data,
    "newcommand".data, "renewcommand".data, "providecommand".data,
    "verbatiminput".data, "lstinputlisting".data, "catcode".data,
    "makeatletter".data, "makeatother".data, "usepackage".data,
    "RequirePackage".data, "documentclass".data, "href".data ]

/-- mathinput/security.py ALLOWED_COMMANDS. -/
def ALLOWED_COMMANDS : List (List Char) :=
  [ "frac".data, "sqrt".data, "root".data, "sum".data, "int".data,
    "prod".data, "lim".data, "inf".data,
    "sin".data, "cos".data, "tan".data, "sec".data, "csc".data, "cot".data,
    "arcsin".data, "arccos".data, "arctan".data, "arcsec".data,
    "arccsc".data, "arccot".data,
    "sinh".data, "cosh".data, "tanh".data, "sech".data, "csch".data,
    "coth".data,
    "log".data, "ln".data, "exp".data, "lg".data,
    "mathbf".data, "mathit".data, "mathrm".data, "mathsf".data,
    "mathtt".data, "mathcal".data,
    "mathbb".data, "mathfrak".data, "mathscr".data,
    "text".data, "textbf".data, "textit".data, "textsf".data,
    "texttt".data, "textsc".data,
    "emph".data, "underline".data, "overline".data,
    "begin".data, "end".data,
    "matrix".data, "pmatrix".data, "bmatrix".data, "Bmatrix".data,
    "vmatrix".data, "Vmatrix".data,
    "array".data, "cases".data, "align".data, "aligned".data,
    "eqnarray".data, "equation".data,
    "split".data, "multline".data, "gather".data, "gathered".data,
    "partial".data, "nabla".data, "Delta".data, "nabla".data,
    "cdot".data, "times".data, "div".data, "pm".data, "mp".data,
    "leq".data, "geq".data, "neq".data, "approx".data, "equiv".data,
    "sim".data,
    "in".data, "notin".data, "subset".data, "supset".data,
    "subseteq".data, "supseteq".data,
    "cup".data, "cap".data, "setminus".data, "emptyset".data,
    "forall".data, "exists".data, "nexists".data,
    "alpha".data, "beta".data, "gamma".data, "delta".data,
    "epsilon".data, "varepsilon".data,
    "zeta".data, "eta".data, "theta".data, "vartheta".data,
    "iota".data, "kappa".data,
    "lambda".data, "mu".data, "nu".data, "xi".data, "pi".data,
    "varpi".data, "rho".data, "varrho".data,
    "sigma".data, "varsigma".data, "tau".data, "upsilon".data,
    "phi".data, "varphi".data,
    "chi".data, "psi".data, "omega".data,
    "Gamma".data, "Delta".data, "Theta".data, "Lambda".data, "Xi".data,
    "Pi".data, "Sigma".data,
    "Upsilon".data, "Phi".data, "Psi".data, "Omega".data,
    "infty".data, "emptyset".data, "varnothing".data,
    "ell".data, "hbar".data, "imath".data, "jmath".data,
    "^".data, "_".data,
    "quad".data, "qquad".data, "hspace".data, "vspace".data,
    "thinspace".data, "medspace".data,
    "thickspace".data, "negthinspace".data, "negmedspace".data,
    "negthickspace".data,
    "left".data, "right".data, "big".data, "Big".data, "bigg".data,
    "Bigg".data,
    "hat".data, "check".data, "breve".data, "acute".data, "grave".data,
    "tilde".data, "bar".data,
    "vec".data, "dot".data, "ddot".data, "dddot".data, "ddddot".data,
    "color".data, "textcolor".data, "colorbox".data, "fcolorbox".data,
    "label".data, "ref".data, "eqref".data, "tag".data,
    "not".data, "neg".data,
    "prime".data, "backprime".data,
    "ldots".data, "cdots".data, "vdots".data, "ddots".data,
    "angle".data, "measuredangle".data, "sphericalangle".data,
    "parallel".data, "nparallel".data, "perp".data,
    "propto".data, "asymp".data ]

/-- Python `str.strip()` on the ASCII whitespace fragment. -/
def pyStrip (s : List Char) : List Char :=
  (((s.dropWhile isPySpace).reverse).dropWhile isPySpace).reverse

/-- mathinput/security.py `is_command_allowed`: empty check, then
lower-case and strip, then block-list check, then whitelist check. -/
def is_command_allowed (command : List Char) : Bool :=
  if command = [] then false
  else
    let c := pyStrip (command.map lowerAscii)
    if c ∈ BLOCKED_COMMANDS then false
    else c ∈ ALLOWED_COMMANDS

/-- The main loop of mathinput/validators.py `count_nesting`: a depth
counter and a bracket stack; a backslash skips the following character;
a closer pops only when the stack top is its matching opener. -/
def countAux (st : List Char) (cur mx : Nat) : List Char → Nat
  | [] => mx
  | '\\' :: _ :: t => countAux st cur mx t
  | '{' :: t => countAux ('{' :: st) (cur + 1) (max mx (cur + 1)) t
  | '}' :: t =>
    match st with
    | '{' :: st2 => countAux st2 (cur - 1) mx t
    | _ => countAux st cur mx t
  | '(' :: t => countAux ('(' :: st) (cur + 1) (max mx (cur + 1)) t
  | ')' :: t =>
    match st with
    | '(' :: st2 => countAux st2 (cur - 1) mx t
    | _ => countAux st cur mx t
  | '[' :: t => countAux ('[' :: st) (cur + 1) (max mx (cur + 1)) t
  | ']' :: t =>
    match st with
    | '[' :: st2 => countAux st2 (cur - 1) mx t
    | _ => countAux st cur mx t
  | _ :: t => countAux st cur mx t

/-- mathinput/validators.py `count_nesting`. -/
def count_nesting (s : List Char) : Nat :=
  if s = [] then 0 else countAux [] 0 0 s

/-- Split around the first case-insensitive occurrence of a literal:
returns (text before the occurrence, text after it). -/
def splitFirstCI (lit : List Char) : List Char → Option (List Char × List Char)
  | [] => (stripCI lit []).map (fun r => ([], r))
  | c :: t =>
    match stripCI lit (c :: t) with
    | some r => some ([], r)
    | none => (splitFirstCI lit t).map (fun p => (c :: p.1, p.2))

/-- Non-overlapping count of the two-character row separator, Python's
`matrix_content.count('\x5c\x5c')`. -/
def countBB : List Char → Nat
  | '\\' :: '\\' :: t => countBB t + 1
  | _ :: t => countBB t
  | [] => 0

/-- The first row: everything before the first row separator (the whole
content when there is none), Python's slice up to `find('\x5c\x5c')`. -/
def beforeBB : List Char → List Char
  | '\\' :: '\\' :: _ => []
  | c :: t => c :: beforeBB t
  | [] => []

/-- Count of column separators in a row. -/
def countAmp (s : List Char) : Nat := (s.filter (fun c => c = '&')).length

/-- The seven matrix environment names, in the priority order of the
source's `matrix_patterns` list. -/
def matrixNames : List (List Char) :=
  [ "matrix".data, "pmatrix".data, "bmatrix".data, "Bmatrix".data,
    "vmatrix".data, "Vmatrix".data, "array".data ]

/-- The opener pattern for one environment name. -/
def beginTok (name : List Char) : List Char :=
  "\\begin\x7b".data ++ name ++ ['\x7d']

/-- The closer pattern for one environment name. -/
def endTok (name : List Char) : List Char :=
  "\\end\x7b".data ++ name ++ ['\x7d']

/-- One iteration of the pattern loop of `get_matrix_size`: find the first
opener for this name, the first same-name closer after it, count rows and
columns of the span, and succeed only when both counts are positive. -/
def sizeFor (name : List Char) (s : List Char) : Option (Nat × Nat) :=
  match splitFirstCI (beginTok name) s with
  | none => none
  | some (_, r1) =>
    match splitFirstCI (endTok name) r1 with
    | none => none
    | some (content, _) =>
      let rows := if pyStrip content = [] then 0 else countBB content + 1
      let firstRow := beforeBB content
      let cols := if pyStrip firstRow = [] then 0 else countAmp firstRow + 1
      if 0 < rows ∧ 0 < cols then some (rows, cols) else none

/-- The pattern loop: first name (in priority order) whose `sizeFor`
succeeds. -/
def sizeLoop : List (List Char) → List Char → Option (Nat × Nat)
  | [], _ => none
  | n :: ns, s =>
    match sizeFor n s with
    | some rc => some rc
    | none => sizeLoop ns s

/-- mathinput/validators.py `get_matrix_size`. -/
def get_matrix_size (s : List Char) : Option (Nat × Nat) :=
  if s = [] then none else sizeLoop matrixNames s

/-- Module defaults of mathinput/validators.py. -/
def MAX_FORMULA_LENGTH : Nat := 10000

/-- Default nesting-depth limit. -/
def MAX_NESTING_DEPTH : Nat := 50

/-- Default matrix-size limit. -/
def MAX_MATRIX_SIZE : Nat × Nat := (100, 100)

/-- The limits held by a `MathInputValidator` instance. -/
structure MathInputValidator where
  max_length : Nat
  max_nesting : Nat
  max_matrix_size : Nat × Nat
deriving DecidableEq

/-- Python's `arg or default` on an optional integer argument: `None` and
`0` are falsy and yield the default. -/
def pyOr (arg : Option Nat) (d : Nat) : Nat :=
  match arg with
  | none => d
  | some 0 => d
  | some n => n

/-- Python's `arg or default` on the matrix-size argument.  The falsy
values an int-or-tuple argument can take (`None`, `0`, the empty tuple)
are all modelled as `none`; a pair, even `(0, 0)`, is truthy and kept. -/
def pyOrPair (arg : Option (Nat × Nat)) (d : Nat × Nat) : Nat × Nat :=
  match arg with
  | none => d
  | some p => p

/-- The constructor `MathInputValidator.__init__`: falsy arguments fall back to the
module defaults. -/
def mkMathInputValidator (max_length max_nesting : Option Nat)
    (max_matrix_size : Option (Nat × Nat)) : MathInputValidator :=
  ⟨pyOr max_length MAX_FORMULA_LENGTH,
   pyOr max_nesting MAX_NESTING_DEPTH,
   pyOrPair max_matrix_size MAX_MATRIX_SIZE⟩

/-- A validator constructed with no explicit limits. -/
def defaultValidator : MathInputValidator :=
  mkMathInputValidator none none none

/-- The kinds of `ValidationError` raised by `validate`, with the
disallowed-command rejection carrying the offending names. -/
inductive Rejection where
  | TooLong : Rejection
  | UnsafeContent : Rejection
  | DisallowedCommands : List (List Char) → Rejection
  | TooDeeplyNested : Rejection
  | MatrixTooLarge : Rejection
deriving DecidableEq

instance : DecidableEq (Except Rejection (List Char)) :=
  fun a b =>
    match a, b with
    | .ok x, .ok y =>
      if h : x = y then isTrue (by rw [h]) else isFalse (by simp [h])
    | .ok _, .error _ => isFalse (by simp)
    | .error _, .ok _ => isFalse (by simp)
    | .error x, .error y =>
      if h : x = y then isTrue (by rw [h]) else isFalse (by simp [h])

/-- The extracted commands not passing the whitelist, in the order the
model extracts them. -/
def blockedIn (s : List Char) : List (List Char) :=
  (extract_commands s).filter (fun c => !is_command_allowed c)

/-- The method `MathInputValidator.validate`: empty short-circuit, then length,
dangerous-pattern, command-whitelist, nesting and matrix checks in order,
each raising its rejection, and finally the sanitized formula. -/
def MathInputValidator.validate (v : MathInputValidator) (s : List Char) :
    Except Rejection (List Char) :=
  if s = [] then .ok []
  else if v.max_length < s.length then .error .TooLong
  else if contains_dangerous_pattern s then .error .UnsafeContent
  else if blockedIn s ≠ [] then .error (.DisallowedCommands (blockedIn s))
  else if v.max_nesting < count_nesting s then .error .TooDeeplyNested
  else
    match get_matrix_size s with
    | some (r, c) =>
      if v.max_matrix_size.1 < r ∨ v.max_matrix_size.2 < c then
        .error .MatrixTooLarge
      else .ok (sanitize_latex s)
    | none => .ok (sanitize_latex s)

/-- Escape every character of a string with a backslash. -/
def escapeAll : List Char → List Char
  | [] => []
  | c :: t => '\\' :: c :: escapeAll t

/-- Case-insensitive prefix test, stated independently of the matcher
combinators, for formalizing claims about substring containment. -/
def isPrefCI : List Char → List Char → Bool
  | [], _ => true
  | _ :: _, [] => false
  | p :: ps, c :: cs => (lowerAscii c = lowerAscii p) && isPrefCI ps cs

/-- Case-insensitive substring containment. -/
def hasSubstrCI (p : List Char) : List Char → Bool
  | [] => isPrefCI p []
  | c :: t => isPrefCI p (c :: t) || hasSubstrCI p t

/-- A formula whose sanitization splices together a `<script` that a second
pass then removes: sanitize is not idempotent on it. -/
def spliceEx : List Char := "<scr<iframeipt".data

/-- The spec's two-by-two pmatrix example. -/
def pmatrixEx : List Char :=
  "\\begin\x7bpmatrix\x7d a & b \\\\ c & d \\end\x7bpmatrix\x7d".data

/-- A pmatrix followed by a later, smaller matrix environment: the source
inspects the later one because of pattern priority. -/
def twoEnvEx : List Char :=
  "\\begin\x7bpmatrix\x7da&b\\end\x7bpmatrix\x7d\\begin\x7bmatrix\x7dx\\end\x7bmatrix\x7d".data

/-! Generic facts about `searchM` and `substM`. -/

lemma substAux_length_le (m : List Char → Option (List Char)) (fuel : Nat) :
    ∀ s : List Char, (substAux m fuel s).length ≤ s.length := by
  induction fuel with
  | zero => intro s; simp [substAux]
  | succ f ih =>
    intro s
    cases s with
    | nil => simp [substAux]
    | cons c t =>
      rw [substAux]
      cases hm : matchLen m (c :: t) with
      | none => simpa using ih t
      | some n =>
        by_cases hn : n = 0
        · simp only [hn, if_pos rfl, List.length_cons]
          simpa using ih t
        · simp only [if_neg hn]
          have h1 := ih (t.drop (n - 1))
          have h2 := List.length_drop (n - 1) t
          simp only [List.length_cons]
          omega

lemma substM_length_le (m : List Char → Option (List Char)) (s : List Char) :
    (substM m s).length ≤ s.length :=
  substAux_length_le m s.length s

lemma searchM_false_head (m : List Char → Option (List Char)) (c : Char)
    (t : List Char) (h : searchM m (c :: t) = false) :
    m (c :: t) = none ∧ searchM m t = false := by
  rw [searchM] at h
  rcases Bool.or_eq_false_iff.mp h with ⟨h1, h2⟩
  exact ⟨Option.not_isSome_iff_eq_none.mp (by simp [h1]), h2⟩

lemma substAux_eq_self_of_not_found (m : List Char → Option (List Char))
    (fuel : Nat) :
    ∀ s : List Char, searchM m s = false → substAux m fuel s = s := by
  induction fuel with
  | zero => intro s _; simp [substAux]
  | succ f ih =>
    intro s h
    cases s with
    | nil => simp [substAux]
    | cons c t =>
      obtain ⟨h1, h2⟩ := searchM_false_head m c t h
      simp [substAux, matchLen, h1, ih t h2]

lemma substM_eq_self_of_not_found (m : List Char → Option (List Char))
    (s : List Char) (h : searchM m s = false) : substM m s = s :=
  substAux_eq_self_of_not_found m s.length s h

lemma searchM_false_of_imp (m1 m2 : List Char → Option (List Char))
    (himp : ∀ t, (m2 t).isSome → (m1 t).isSome) :
    ∀ s : List Char, searchM m1 s = false → searchM m2 s = false := by
  intro s
  induction s with
  | nil =>
    intro h
    rw [searchM] at h ⊢
    cases hh : (m2 []).isSome with
    | false => rfl
    | true => rw [himp [] hh] at h; exact h
  | cons c t ih =>
    intro h
    obtain ⟨h1, h2⟩ := searchM_false_head m1 c t h
    rw [searchM]
    cases hh : (m2 (c :: t)).isSome with
    | false => simpa using ih h2
    | true => exact absurd (himp _ hh) (by simp [h1])

lemma foldl_substM_id (s : List Char) :
    ∀ ms : List (List Char → Option (List Char)),
      (∀ m ∈ ms, searchM m s = false) →
      ms.foldl (fun acc m => substM m acc) s = s := by
  intro ms
  induction ms with
  | nil => intro _; rfl
  | cons m rest ih =>
    intro h
    have h1 : substM m s = s :=
      substM_eq_self_of_not_found m s (h m (List.mem_cons_self m rest))
    simpa [h1] using ih (fun m2 hm2 => h m2 (List.mem_cons_of_mem m hm2))

lemma mHrefFull_imp (t : List Char) :
    (mHrefFull t).isSome → (hrefStem t).isSome := by
  unfold mHrefFull
  cases h : hrefStem t <;> simp [h]

lemma mEventQuoted_imp (t : List Char) :
    (mEventQuoted t).isSome → (eventStem t).isSome := by
  unfold mEventQuoted
  cases h : eventStem t <;> simp [h]

lemma cdp_false_parts (s : List Char) (h0 : s ≠ [])
    (h : contains_dangerous_pattern s = false) :
    (∀ m ∈ dangerousMatchers, searchM m s = false) ∧
      searchM hrefStem s = false ∧ searchM mHtmlTag s = false ∧
      searchM eventStem s = false := by
  unfold contains_dangerous_pattern at h
  rw [if_neg h0] at h
  simp only [Bool.or_eq_false_iff] at h
  obtain ⟨⟨⟨hany, hhref⟩, hhtml⟩, hevent⟩ := h
  refine ⟨?_, hhref, hhtml, hevent⟩
  intro m hm
  have := List.any_eq_false.mp hany m hm
  simpa using this

/-- Claim C1 (counterexample): sanitization is not idempotent.  On the
input of `spliceEx`, removing the embedded `<iframe` splices the remaining
characters into `<script`, which only a second pass removes. -/
theorem sanitize_latex_not_idempotent :
    sanitize_latex (sanitize_latex spliceEx) ≠ sanitize_latex spliceEx := by
  decide

lemma sanitize_eq_self_of_cdp_false (s : List Char)
    (h : contains_dangerous_pattern s = false) : sanitize_latex s = s := by
  by_cases h0 : s = []
  · subst h0; simp [sanitize_latex]
  · obtain ⟨hdang, hhref, hhtml, hevent⟩ := cdp_false_parts s h0 h
    have e1 : dangerousMatchers.foldl (fun acc m => substM m acc) s = s :=
      foldl_substM_id s dangerousMatchers hdang
    have hfull : searchM mHrefFull s = false :=
      searchM_false_of_imp hrefStem mHrefFull mHrefFull_imp s hhref
    have hq : searchM mEventQuoted s = false :=
      searchM_false_of_imp eventStem mEventQuoted mEventQuoted_imp s hevent
    unfold sanitize_latex
    rw [if_neg h0]
    simp only [e1, substM_eq_self_of_not_found mHrefFull s hfull,
      substM_eq_self_of_not_found mHtmlTag s hhtml,
      substM_eq_self_of_not_found mEventQuoted s hq]

/-- Claim C1 (amended): sanitization is idempotent on every string that
contains no dangerous pattern — on such strings it is the identity, so a
second pass changes nothing.  In general a pass can splice together a new
dangerous substring, and a second pass then removes more. -/
theorem sanitize_latex_idempotent_on_safe (s : List Char)
    (h : contains_dangerous_pattern s = false) :
    sanitize_latex s = s ∧
      sanitize_latex (sanitize_latex s) = sanitize_latex s := by
  have e := sanitize_eq_self_of_cdp_false s h
  exact ⟨e, by rw [e, e]⟩

/-- Claim C1 (witness): the safe formula of the frac example is left
unchanged by sanitization. -/
theorem sanitize_latex_idempotent_on_safe_witness :
    contains_dangerous_pattern "\\frac\x7b1\x7d\x7b2\x7d".data = false ∧
      (sanitize_latex "\\frac\x7b1\x7d\x7b2\x7d".data =
          "\\frac\x7b1\x7d\x7b2\x7d".data ∧
        sanitize_latex (sanitize_latex "\\frac\x7b1\x7d\x7b2\x7d".data) =
          sanitize_latex "\\frac\x7b1\x7d\x7b2\x7d".data) :=
  ⟨by decide, sanitize_latex_idempotent_on_safe _ (by decide)⟩

lemma foldl_substM_length_le :
    ∀ (ms : List (List Char → Option (List Char))) (s : List Char),
      (ms.foldl (fun acc m => substM m acc) s).length ≤ s.length := by
  intro ms
  induction ms with
  | nil => intro s; simp
  | cons m rest ih =>
    intro s
    calc (List.foldl (fun acc m => substM m acc) (substM m s) rest).length
        ≤ (substM m s).length := ih (substM m s)
      _ ≤ s.length := substM_length_le m s

/-- Claim C10: sanitization never lengthens its input — every pass only
replaces matched substrings with the empty string. -/
theorem sanitize_latex_length_le (s : List Char) :
    (sanitize_latex s).length ≤ s.length := by
  by_cases h0 : s = []
  · subst h0; simp [sanitize_latex]
  · unfold sanitize_latex
    rw [if_neg h0]
    calc (substM mEventQuoted (substM mHtmlTag (substM mHrefFull
            (dangerousMatchers.foldl (fun acc m => substM m acc) s)))).length
        ≤ (substM mHtmlTag (substM mHrefFull
            (dangerousMatchers.foldl (fun acc m => substM m acc) s))).length :=
          substM_length_le _ _
      _ ≤ (substM mHrefFull
            (dangerousMatchers.foldl (fun acc m => substM m acc) s)).length :=
          substM_length_le _ _
      _ ≤ (dangerousMatchers.foldl (fun acc m => substM m acc) s).length :=
          substM_length_le _ _
      _ ≤ s.length := foldl_substM_length_le dangerousMatchers s

lemma isPrefCI_isSome (p : List Char) :
    ∀ s, isPrefCI p s = true → (stripCI p s).isSome := by
  induction p with
  | nil => intro s _; simp [stripCI]
  | cons a ps ih =>
    intro s h
    cases s with
    | nil => simp [isPrefCI] at h
    | cons c cs =>
      rw [isPrefCI, Bool.and_eq_true] at h
      obtain ⟨h1, h2⟩ := h
      rw [stripCI, if_pos (by simpa using h1)]
      exact ih cs h2

lemma hasSubstrCI_searchM (p : List Char) :
    ∀ s, hasSubstrCI p s = true → searchM (mLit p) s = true := by
  intro s
  induction s with
  | nil =>
    intro h
    rw [hasSubstrCI] at h
    rw [searchM]
    exact isPrefCI_isSome p [] h
  | cons c t ih =>
    intro h
    rw [hasSubstrCI] at h
    rw [searchM]
    rcases Bool.or_eq_true_iff.mp h with h1 | h2
    · rw [Bool.or_eq_true_iff]
      exact Or.inl (isPrefCI_isSome p (c :: t) h1)
    · rw [Bool.or_eq_true_iff]
      exact Or.inr (ih h2)

/-- Claim C5: every string containing `<script` in any mix of letter cases
is flagged by `contains_dangerous_pattern`, via the case-insensitive
`<script` entry of the dangerous-pattern list. -/
theorem contains_dangerous_pattern_script (s : List Char)
    (h : hasSubstrCI "<script".data s = true) :
    contains_dangerous_pattern s = true := by
  have hne : s ≠ [] := by rintro rfl; revert h; decide
  unfold contains_dangerous_pattern
  rw [if_neg hne]
  have hs : searchM (mLit "<script".data) s = true := hasSubstrCI_searchM _ s h
  have hmem : mLit "<script".data ∈ dangerousMatchers := by
    unfold dangerousMatchers
    simp
  have hany : dangerousMatchers.any (fun m => searchM m s) = true :=
    List.any_eq_true.mpr ⟨_, hmem, by simpa using hs⟩
  simp [hany]

/-- Claim C5 (witness): a mixed-case `<SCRipt` occurrence is detected. -/
theorem contains_dangerous_pattern_script_witness :
    hasSubstrCI "<script".data "a<SCRipt b".data = true ∧
      contains_dangerous_pattern "a<SCRipt b".data = true :=
  ⟨by decide, contains_dangerous_pattern_script _ (by decide)⟩

/-- Claim C6: every name in the blocked-command set is rejected by
`is_command_allowed`, regardless of the whitelist: the block-list check
runs first and always wins. -/
theorem blocked_commands_never_allowed (c : List Char)
    (h : c ∈ BLOCKED_COMMANDS) : is_command_allowed c = false := by
  fin_cases h <;> decide

/-- Claim C6 (witness): the blocked name `input` is not allowed. -/
theorem blocked_commands_never_allowed_witness :
    "input".data ∈ BLOCKED_COMMANDS ∧
      is_command_allowed "input".data = false :=
  ⟨by decide, blocked_commands_never_allowed _ (by decide)⟩

lemma countAux_skip_escaped (st : List Char) (cur mx : Nat) (c : Char)
    (t : List Char) :
    countAux st cur mx ('\\' :: c :: t) = countAux st cur mx t := rfl

lemma countAux_escapeAll (s : List Char) :
    ∀ (st : List Char) (cur mx : Nat) (v : List Char),
      countAux st cur mx (escapeAll s ++ v) = countAux st cur mx v := by
  induction s with
  | nil => intro st cur mx v; rfl
  | cons c t ih =>
    intro st cur mx v
    rw [escapeAll]
    simp only [List.cons_append]
    rw [countAux_skip_escaped]
    exact ih st cur mx v

/-- Claim C7: `count_nesting` skips the character following a backslash,
so escaped characters — in particular the literal-brace escapes — never
change the depth in any scanning state; an entirely escaped string has
depth zero; and the three reference examples evaluate as specified. -/
theorem count_nesting_escape_spec :
    (∀ (st : List Char) (cur mx : Nat) (c : Char) (t : List Char),
        countAux st cur mx ('\\' :: c :: t) = countAux st cur mx t) ∧
      (∀ (s : List Char) (st : List Char) (cur mx : Nat) (v : List Char),
        countAux st cur mx (escapeAll s ++ v) = countAux st cur mx v) ∧
      (∀ s : List Char, count_nesting (escapeAll s) = 0) ∧
      count_nesting [] = 0 ∧
      count_nesting "\\frac\x7b1\x7d\x7b2\x7d".data = 1 ∧
      count_nesting "\\frac\x7b\\frac\x7b1\x7d\x7b2\x7d\x7d\x7b3\x7d".data = 2 := by
  refine ⟨countAux_skip_escaped, countAux_escapeAll, ?_, by decide, by decide,
    by decide⟩
  intro s
  unfold count_nesting
  by_cases h0 : escapeAll s = []
  · rw [if_pos h0]
  · rw [if_neg h0]
    have := countAux_escapeAll s [] 0 0 []
    simpa using this

lemma sizeFor_pos (name s : List Char) (r c : Nat)
    (h : sizeFor name s = some (r, c)) : 0 < r ∧ 0 < c := by
  unfold sizeFor at h
  rcases h1 : splitFirstCI (beginTok name) s with _ | ⟨a1, r1⟩ <;> rw [h1] at h
  · simp at h
  · dsimp only at h
    rcases h2 : splitFirstCI (endTok name) r1 with _ | ⟨content, a2⟩ <;>
      rw [h2] at h
    · simp at h
    · dsimp only at h
      split_ifs at h <;>
        first
          | exact Option.noConfusion h
          | (simp only [Option.some.injEq, Prod.mk.injEq] at h; omega)

lemma sizeLoop_pos :
    ∀ (names : List (List Char)) (s : List Char) (r c : Nat),
      sizeLoop names s = some (r, c) → 0 < r ∧ 0 < c := by
  intro names
  induction names with
  | nil => intro s r c h; simp [sizeLoop] at h
  | cons n ns ih =>
    intro s r c h
    rw [sizeLoop] at h
    cases hf : sizeFor n s with
    | none => rw [hf] at h; exact ih s r c h
    | some rc => rw [hf] at h; exact sizeFor_pos n s r c (h ▸ hf)

/-- Claim C4 (counterexample): in a formula holding a pmatrix followed by a
later, smaller matrix environment, `get_matrix_size` reports the later
environment (pattern-priority order), not the first one in the formula,
whose size would be (1, 2). -/
theorem get_matrix_size_not_first_occurrence :
    get_matrix_size twoEnvEx = some (1, 1) ∧
      get_matrix_size twoEnvEx ≠ some (1, 2) := by
  constructor
  · decide
  · decide

/-- Claim C4 (amended): `get_matrix_size` tries the seven recognized
environment names in the fixed priority order matrix, pmatrix, bmatrix,
Bmatrix, vmatrix, Vmatrix, array (case-insensitive); for each it takes
the first opener occurrence, the nearest same-name closer after it, and
row/column counts of that span, returning the first result with both
counts positive.  An environment occurring earlier in the formula can
thus be skipped in favor of a later one whose name has priority. -/
theorem get_matrix_size_priority_spec :
    (∀ (s : List Char) (r c : Nat),
        get_matrix_size s = some (r, c) → 0 < r ∧ 0 < c) ∧
      get_matrix_size pmatrixEx = some (2, 2) ∧
      get_matrix_size twoEnvEx = some (1, 1) := by
  refine ⟨?_, by decide, by decide⟩
  intro s r c h
  unfold get_matrix_size at h
  by_cases h0 : s = []
  · rw [if_pos h0] at h; simp at h
  · rw [if_neg h0] at h
    exact sizeLoop_pos matrixNames s r c h

/-- Claim C4 (witness): the positivity clause applied to the pmatrix
example. -/
theorem get_matrix_size_priority_spec_witness :
    get_matrix_size pmatrixEx = some (2, 2) ∧ (0 < 2 ∧ 0 < 2) :=
  ⟨by decide, get_matrix_size_priority_spec.1 pmatrixEx 2 2 (by decide)⟩

lemma validate_TooLong_iff (v : MathInputValidator) (s : List Char) :
    v.validate s = .error .TooLong ↔ s ≠ [] ∧ v.max_length < s.length := by
  unfold MathInputValidator.validate
  by_cases h0 : s = [] <;>
    by_cases h1 : v.max_length < s.length <;>
      by_cases h2 : contains_dangerous_pattern s = true <;>
        by_cases h3 : blockedIn s = [] <;>
          by_cases h4 : v.max_nesting < count_nesting s <;>
            rcases hm : get_matrix_size s with _ | ⟨r0, c0⟩ <;>
              simp [h0, h1, h2, h3, h4, hm] <;>
                (try (split_ifs <;> simp_all))

lemma validate_Unsafe_iff (v : MathInputValidator) (s : List Char) :
    v.validate s = .error .UnsafeContent ↔
      s ≠ [] ∧ s.length ≤ v.max_length ∧
        contains_dangerous_pattern s = true := by
  unfold MathInputValidator.validate
  by_cases h0 : s = [] <;>
    by_cases h1 : v.max_length < s.length <;>
      by_cases h2 : contains_dangerous_pattern s = true <;>
        by_cases h3 : blockedIn s = [] <;>
          by_cases h4 : v.max_nesting < count_nesting s <;>
            rcases hm : get_matrix_size s with _ | ⟨r0, c0⟩ <;>
              simp [h0, h1, h2, h3, h4, hm, Nat.not_lt] <;>
                (try (split_ifs <;> simp_all)) <;> (try omega)

lemma validate_Disallowed_iff (v : MathInputValidator) (s : List Char) :
    (∃ bs, v.validate s = .error (.DisallowedCommands bs)) ↔
      s ≠ [] ∧ s.length ≤ v.max_length ∧
        contains_dangerous_pattern s = false ∧ blockedIn s ≠ [] := by
  unfold MathInputValidator.validate
  by_cases h0 : s = [] <;>
    by_cases h1 : v.max_length < s.length <;>
      by_cases h2 : contains_dangerous_pattern s = true <;>
        by_cases h3 : blockedIn s = [] <;>
          by_cases h4 : v.max_nesting < count_nesting s <;>
            rcases hm : get_matrix_size s with _ | ⟨r0, c0⟩ <;>
              simp [h0, h1, h2, h3, h4, hm, Nat.not_lt,
                Bool.not_eq_true] <;>
                (try (split_ifs <;> simp_all)) <;> (try omega)

lemma validate_Nested_iff (v : MathInputValidator) (s : List Char) :
    v.validate s = .error .TooDeeplyNested ↔
      s ≠ [] ∧ s.length ≤ v.max_length ∧
        contains_dangerous_pattern s = false ∧ blockedIn s = [] ∧
        v.max_nesting < count_nesting s := by
  unfold MathInputValidator.validate
  by_cases h0 : s = [] <;>
    by_cases h1 : v.max_length < s.length <;>
      by_cases h2 : contains_dangerous_pattern s = true <;>
        by_cases h3 : blockedIn s = [] <;>
          by_cases h4 : v.max_nesting < count_nesting s <;>
            rcases hm : get_matrix_size s with _ | ⟨r0, c0⟩ <;>
              simp [h0, h1, h2, h3, h4, hm, Nat.not_lt,
                Bool.not_eq_true] <;>
                (try (split_ifs <;> simp_all)) <;> (try omega)

lemma validate_Matrix_iff (v : MathInputValidator) (s : List Char) :
    v.validate s = .error .MatrixTooLarge ↔
      s ≠ [] ∧ s.length ≤ v.max_length ∧
        contains_dangerous_pattern s = false ∧ blockedIn s = [] ∧
        count_nesting s ≤ v.max_nesting ∧
        ∃ r c, get_matrix_size s = some (r, c) ∧
          (v.max_matrix_size.1 < r ∨ v.max_matrix_size.2 < c) := by
  unfold MathInputValidator.validate
  by_cases h0 : s = [] <;>
    by_cases h1 : v.max_length < s.length <;>
      by_cases h2 : contains_dangerous_pattern s = true <;>
        by_cases h3 : blockedIn s = [] <;>
          by_cases h4 : v.max_nesting < count_nesting s <;>
            rcases hm : get_matrix_size s with _ | ⟨r0, c0⟩ <;>
              simp [h0, h1, h2, h3, h4, hm, Nat.not_lt,
                Bool.not_eq_true] <;>
                (try (split_ifs <;> simp_all)) <;> (try omega)
  constructor
  · intro h5
    exact ⟨Nat.not_lt.mp h1, Nat.not_lt.mp h4, r0, c0, ⟨rfl, rfl⟩, by omega⟩
  · rintro ⟨hA, hB, r, c, ⟨rfl, rfl⟩, hor⟩
    omega

lemma validate_ok_eq (v : MathInputValidator) (s r : List Char)
    (h : v.validate s = .ok r) : r = sanitize_latex s := by
  unfold MathInputValidator.validate at h
  by_cases h0 : s = []
  · rw [if_pos h0] at h
    obtain rfl : ([] : List Char) = r := Except.ok.inj h
    rw [h0]
    simp [sanitize_latex]
  · rw [if_neg h0] at h
    split_ifs at h
    rcases hm : get_matrix_size s with _ | ⟨r0, c0⟩ <;> rw [hm] at h
    · exact (Except.ok.inj h).symm
    · dsimp only at h
      split_ifs at h
      exact (Except.ok.inj h).symm

/-! Characters on which no pattern can start a match ("inert" characters),
used to evaluate the pipeline symbolically on homogeneous strings. -/

lemma stripCI_cons_none (l : Char) (ls : List Char) (c : Char) (t : List Char)
    (h : lowerAscii c ≠ lowerAscii l) : stripCI (l :: ls) (c :: t) = none := by
  simp [stripCI, h]

lemma mLit_cons_none (l : Char) (ls : List Char) (c : Char) (t : List Char)
    (h : lowerAscii c ≠ lowerAscii l) : mLit (l :: ls) (c :: t) = none := by
  simp [mLit, stripCI_cons_none l ls c t h]

lemma mLitWs_cons_none (l : Char) (ls : List Char) (c : Char) (t : List Char)
    (h : lowerAscii c ≠ lowerAscii l) : mLitWs (l :: ls) (c :: t) = none := by
  simp [mLitWs, stripCI_cons_none l ls c t h]

lemma mLitWsBrace_cons_none (l : Char) (ls : List Char) (c : Char)
    (t : List Char) (h : lowerAscii c ≠ lowerAscii l) :
    mLitWsBrace (l :: ls) (c :: t) = none := by
  simp [mLitWsBrace, stripCI_cons_none l ls c t h]

lemma mLitWsEq_cons_none (l : Char) (ls : List Char) (c : Char)
    (t : List Char) (h : lowerAscii c ≠ lowerAscii l) :
    mLitWsEq (l :: ls) (c :: t) = none := by
  simp [mLitWsEq, stripCI_cons_none l ls c t h]

lemma hrefStem_cons_none (c : Char) (t : List Char)
    (h : lowerAscii c ≠ lowerAscii '\\') : hrefStem (c :: t) = none := by
  unfold hrefStem
  rw [show ("\\href".data : List Char) = '\\' :: "href".data from rfl]
  rw [stripCI_cons_none '\\' "href".data c t h]

lemma mHrefFull_cons_none (c : Char) (t : List Char)
    (h : lowerAscii c ≠ lowerAscii '\\') : mHrefFull (c :: t) = none := by
  unfold mHrefFull
  rw [hrefStem_cons_none c t h]

lemma mHtmlTag_cons_none (c : Char) (t : List Char) (h : c ≠ '<') :
    mHtmlTag (c :: t) = none := by
  unfold mHtmlTag
  split
  · simp_all
  · rfl

lemma eventStem_cons_none (c : Char) (t : List Char)
    (hsp : isPySpace c = false) (h : lowerAscii c ≠ lowerAscii 'o') :
    eventStem (c :: t) = none := by
  unfold eventStem
  rw [show dropSpaces (c :: t) = c :: t by simp [dropSpaces, hsp]]
  rw [show ("on".data : List Char) = 'o' :: "n".data from rfl]
  rw [stripCI_cons_none 'o' "n".data c t h]

lemma mEventQuoted_cons_none (c : Char) (t : List Char)
    (hsp : isPySpace c = false) (h : lowerAscii c ≠ lowerAscii 'o') :
    mEventQuoted (c :: t) = none := by
  unfold mEventQuoted
  rw [eventStem_cons_none c t hsp h]

/-- On a character that lower-cases to none of backslash, `<`, `o`, `j`
and is not whitespace, no dangerous-pattern matcher can start a match. -/
lemma dangerous_cons_none (c : Char) (hb : lowerAscii c ≠ lowerAscii '\\')
    (hlt : lowerAscii c ≠ lowerAscii '<') (ho : lowerAscii c ≠ lowerAscii 'o')
    (hj : lowerAscii c ≠ lowerAscii 'j') (hsp : isPySpace c = false) :
    ∀ m ∈ dangerousMatchers, ∀ t, m (c :: t) = none := by
  intro m hm
  fin_cases hm <;> intro t <;>
    first
      | exact mLitWsBrace_cons_none _ _ _ _ hb
      | exact mLitWs_cons_none _ _ _ _ hb
      | exact mLit_cons_none _ _ _ _ hb
      | exact mLit_cons_none _ _ _ _ hlt
      | exact mLit_cons_none _ _ _ _ hj
      | exact mLitWsEq_cons_none _ _ _ _ ho
      | exact hrefStem_cons_none _ _ hb

lemma searchM_false_replicate (m : List Char → Option (List Char)) (c : Char)
    (hc : ∀ t, m (c :: t) = none) (hn : m [] = none) :
    ∀ n, searchM m (List.replicate n c) = false := by
  intro n
  induction n with
  | zero => simp [searchM, hn]
  | succ k ih => rw [List.replicate_succ, searchM]; simp [hc, ih]

lemma cdp_replicate (c : Char) (hb : lowerAscii c ≠ lowerAscii '\\')
    (hlt : lowerAscii c ≠ lowerAscii '<') (ho : lowerAscii c ≠ lowerAscii 'o')
    (hj : lowerAscii c ≠ lowerAscii 'j') (hsp : isPySpace c = false) :
    ∀ n, contains_dangerous_pattern (List.replicate n c) = false := by
  have hnil : ∀ m ∈ dangerousMatchers, m [] = none := by decide
  intro n
  cases n with
  | zero => rfl
  | succ k =>
    unfold contains_dangerous_pattern
    rw [if_neg (by simp [List.replicate_succ])]
    have h1 : dangerousMatchers.any
        (fun m => searchM m (List.replicate (k + 1) c)) = false := by
      rw [List.any_eq_false]
      intro m hm
      simp only [Bool.not_eq_true]
      exact searchM_false_replicate m c (dangerous_cons_none c hb hlt ho hj hsp m hm)
        (hnil m hm) (k + 1)
    have h2 : searchM hrefStem (List.replicate (k + 1) c) = false :=
      searchM_false_replicate _ c (fun t => hrefStem_cons_none c t hb)
        (by decide) (k + 1)
    have h3 : searchM mHtmlTag (List.replicate (k + 1) c) = false :=
      searchM_false_replicate _ c
        (fun t => mHtmlTag_cons_none c t (by intro he; exact hlt (by rw [he])))
        (by decide) (k + 1)
    have h4 : searchM eventStem (List.replicate (k + 1) c) = false :=
      searchM_false_replicate _ c (fun t => eventStem_cons_none c t hsp ho)
        (by decide) (k + 1)
    rw [h1, h2, h3, h4]
    rfl

lemma sanitize_replicate (c : Char) (hb : lowerAscii c ≠ lowerAscii '\\')
    (hlt : lowerAscii c ≠ lowerAscii '<') (ho : lowerAscii c ≠ lowerAscii 'o')
    (hj : lowerAscii c ≠ lowerAscii 'j') (hsp : isPySpace c = false) :
    ∀ n, sanitize_latex (List.replicate n c) = List.replicate n c := by
  intro n
  exact sanitize_eq_self_of_cdp_false _ (cdp_replicate c hb hlt ho hj hsp n)

lemma extractCmdsAux_zero (s : List Char) : extractCmdsAux 0 s = [] := by
  cases s <;> rfl

lemma extractCmdsAux_cons_ne (f : Nat) (c : Char) (t : List Char)
    (h : c ≠ '\\') :
    extractCmdsAux (f + 1) (c :: t) = extractCmdsAux f t := by
  conv_lhs => unfold extractCmdsAux
  split <;> simp_all

lemma extractCmdsAux_replicate (f : Nat) (c : Char) (h : c ≠ '\\') :
    ∀ n, extractCmdsAux f (List.replicate n c) = [] := by
  induction f with
  | zero => intro n; exact extractCmdsAux_zero _
  | succ k ih =>
    intro n
    cases n with
    | zero => rfl
    | succ j =>
      rw [List.replicate_succ, extractCmdsAux_cons_ne k c _ h]
      exact ih j

lemma extract_commands_replicate (c : Char) (h : c ≠ '\\') (n : Nat) :
    extract_commands (List.replicate n c) = [] := by
  unfold extract_commands
  split
  · rfl
  · unfold extractCmds
    rw [extractCmdsAux_replicate _ c h n]
    rfl

lemma countAux_cons_plain (st : List Char) (cur mx : Nat) (c : Char)
    (t : List Char) (h1 : c ≠ '{') (h2 : c ≠ '}') (h3 : c ≠ '(')
    (h4 : c ≠ ')') (h5 : c ≠ '[') (h6 : c ≠ ']') (h7 : c ≠ '\\') :
    countAux st cur mx (c :: t) = countAux st cur mx t := by
  conv_lhs => unfold countAux
  split <;> simp_all

lemma count_nesting_replicate (c : Char) (h1 : c ≠ '{') (h2 : c ≠ '}')
    (h3 : c ≠ '(') (h4 : c ≠ ')') (h5 : c ≠ '[') (h6 : c ≠ ']')
    (h7 : c ≠ '\\') (n : Nat) :
    count_nesting (List.replicate n c) = 0 := by
  have key : ∀ k, countAux [] 0 0 (List.replicate k c) = 0 := by
    intro k
    induction k with
    | zero => rfl
    | succ j ih =>
      rw [List.replicate_succ,
        countAux_cons_plain [] 0 0 c _ h1 h2 h3 h4 h5 h6 h7]
      exact ih
  unfold count_nesting
  split
  · rfl
  · exact key n

lemma splitFirstCI_replicate (l : Char) (ls : List Char) (c : Char)
    (h : lowerAscii c ≠ lowerAscii l) :
    ∀ n, splitFirstCI (l :: ls) (List.replicate n c) = none := by
  intro n
  induction n with
  | zero => rfl
  | succ k ih =>
    rw [List.replicate_succ, splitFirstCI,
      stripCI_cons_none l ls c _ h, ih]
    rfl

lemma get_matrix_size_replicate (c : Char)
    (h : lowerAscii c ≠ lowerAscii '\\') (n : Nat) :
    get_matrix_size (List.replicate n c) = none := by
  have key : ∀ name, sizeFor name (List.replicate n c) = none := by
    intro name
    unfold sizeFor
    have hb : beginTok name = '\\' :: ("begin\x7b".data ++ name ++ ['\x7d']) :=
      rfl
    rw [hb, splitFirstCI_replicate '\\' _ c h n]
  unfold get_matrix_size
  split
  · rfl
  · show sizeLoop matrixNames (List.replicate n c) = none
    unfold matrixNames
    simp [sizeLoop, key]

lemma validate_replicate_x (n : Nat) :
    defaultValidator.validate (List.replicate n 'x') =
      if 10000 < n then .error .TooLong
      else .ok (List.replicate n 'x') := by
  cases n with
  | zero => rfl
  | succ k =>
    have hne : List.replicate (k + 1) 'x' ≠ [] := by
      simp [List.replicate_succ]
    have hlen : (List.replicate (k + 1) 'x').length = k + 1 := by simp
    have hvd : defaultValidator = ⟨10000, 50, (100, 100)⟩ := rfl
    unfold MathInputValidator.validate
    rw [hvd]
    rw [if_neg hne]
    by_cases hlong : 10000 < k + 1
    · rw [if_pos (by rw [hlen]; exact hlong), if_pos hlong]
    · rw [if_neg (by rw [hlen]; exact hlong), if_neg hlong]
      rw [if_neg (by
        rw [cdp_replicate 'x' (by decide) (by decide) (by decide) (by decide)
          (by decide) (k + 1)]
        simp)]
      have hbl : blockedIn (List.replicate (k + 1) 'x') = [] := by
        simp [blockedIn, extract_commands_replicate 'x' (by decide)]
      rw [if_neg (by rw [hbl]; simp)]
      rw [if_neg (by
        rw [count_nesting_replicate 'x' (by decide) (by decide) (by decide)
          (by decide) (by decide) (by decide) (by decide) (k + 1)]
        omega)]
      rw [get_matrix_size_replicate 'x' (by decide) (k + 1)]
      rw [sanitize_replicate 'x' (by decide) (by decide) (by decide)
        (by decide) (by decide) (k + 1)]

/-- Claim C2: `validate` surfaces exactly one rejection per call, with the
checks in fixed priority order — each rejection kind occurs exactly when
its own check fails and every earlier check passes.  In particular a
formula that is both too long and dangerous is rejected as TooLong. -/
theorem validate_check_order (v : MathInputValidator) (s : List Char) :
    (v.validate s = .error .TooLong ↔ s ≠ [] ∧ v.max_length < s.length) ∧
      (v.validate s = .error .UnsafeContent ↔
        s ≠ [] ∧ s.length ≤ v.max_length ∧
          contains_dangerous_pattern s = true) ∧
      ((∃ bs, v.validate s = .error (.DisallowedCommands bs)) ↔
        s ≠ [] ∧ s.length ≤ v.max_length ∧
          contains_dangerous_pattern s = false ∧ blockedIn s ≠ []) ∧
      (v.validate s = .error .TooDeeplyNested ↔
        s ≠ [] ∧ s.length ≤ v.max_length ∧
          contains_dangerous_pattern s = false ∧ blockedIn s = [] ∧
          v.max_nesting < count_nesting s) ∧
      (v.validate s = .error .MatrixTooLarge ↔
        s ≠ [] ∧ s.length ≤ v.max_length ∧
          contains_dangerous_pattern s = false ∧ blockedIn s = [] ∧
          count_nesting s ≤ v.max_nesting ∧
          ∃ r c, get_matrix_size s = some (r, c) ∧
            (v.max_matrix_size.1 < r ∨ v.max_matrix_size.2 < c)) :=
  ⟨validate_TooLong_iff v s, validate_Unsafe_iff v s,
    validate_Disallowed_iff v s, validate_Nested_iff v s,
    validate_Matrix_iff v s⟩

/-- Claim C3: whenever `validate` succeeds it returns the sanitized
formula, not the raw input. -/
theorem validate_ok_returns_sanitized (v : MathInputValidator)
    (s r : List Char) (h : v.validate s = .ok r) : r = sanitize_latex s :=
  validate_ok_eq v s r h

/-- Claim C3 (witness): on the frac example the default validator succeeds
and returns the (here unchanged) sanitized formula. -/
theorem validate_ok_returns_sanitized_witness :
    defaultValidator.validate "\\frac\x7b1\x7d\x7b2\x7d".data =
        .ok "\\frac\x7b1\x7d\x7b2\x7d".data ∧
      "\\frac\x7b1\x7d\x7b2\x7d".data =
        sanitize_latex "\\frac\x7b1\x7d\x7b2\x7d".data :=
  ⟨by decide, validate_ok_returns_sanitized defaultValidator _ _ (by decide)⟩

/-- Claim C8: the TooLong rejection occurs exactly on non-empty formulas
strictly longer than the limit; under the default limit, 10001 characters
are rejected as TooLong and 10000 characters validate successfully. -/
theorem validate_too_long_spec :
    (∀ (v : MathInputValidator) (s : List Char),
        v.validate s = .error .TooLong ↔ s ≠ [] ∧ v.max_length < s.length) ∧
      defaultValidator.validate (List.replicate 10001 'x') =
        .error .TooLong ∧
      defaultValidator.validate (List.replicate 10000 'x') =
        .ok (List.replicate 10000 'x') := by
  refine ⟨validate_TooLong_iff, ?_, ?_⟩
  · rw [validate_replicate_x]
    norm_num
  · rw [validate_replicate_x]
    norm_num

/-- Claim C9 (counterexample): a validator constructed with max_nesting=0
does fall back to the default limit of 50, but it does not accept every
formula of nesting depth at most 50 — a depth-zero formula can still be
rejected by an earlier check. -/
theorem mk_validator_zero_nesting_not_accepting :
    count_nesting "<script".data ≤ 50 ∧
      (mkMathInputValidator none (some 0) none).validate "<script".data =
        .error .UnsafeContent := by
  constructor
  · decide
  · decide

/-- Claim C9 (amended): falsy explicit limits (zero for the numeric
limits, a falsy matrix-size argument) silently fall back to the module
defaults 10000, 50 and (100, 100); consequently a validator built with
max_nesting=0 never rejects a formula as too deeply nested unless its
depth exceeds 50 (though other checks may still reject it). -/
theorem mk_validator_falsy_defaults :
    mkMathInputValidator (some 0) (some 0) none = defaultValidator ∧
      defaultValidator = ⟨10000, 50, (100, 100)⟩ ∧
      (∀ s, (mkMathInputValidator none (some 0) none).validate s =
          .error .TooDeeplyNested → 50 < count_nesting s) := by
  refine ⟨rfl, rfl, ?_⟩
  intro s h
  exact ((validate_Nested_iff _ s).mp h).2.2.2.2

set_option maxRecDepth 40000 in
/-- Claim C9 (witness): 51 nested parentheses are rejected as too deeply
nested by a validator built with max_nesting=0, and their depth exceeds
50. -/
theorem mk_validator_falsy_defaults_witness :
    (mkMathInputValidator none (some 0) none).validate
        (List.replicate 51 '(') = .error .TooDeeplyNested ∧
      50 < count_nesting (List.replicate 51 '(') :=
  ⟨by decide, mk_validator_falsy_defaults.2.2 _ (by decide)⟩
